import Mathlib

/-!
# Verification of the paperterm dashboard renderer

Shallow embedding of the pure computational core of the paperterm sources
(`artwork.py`, `ascii_digits.py`, `calendar_render.py`, `render.py`,
`weather_render.py`) together with proofs of the specification claims about
them.

Conventions:
* Python machine integers are arbitrary precision, so they are embedded as
  `Int` (or `Nat` where the source value is manifestly non-negative).
* Python `%` on a positive modulus is floor-mod, which agrees with `Int.emod`
  (Euclidean mod) for a positive modulus.
* Text read from the rotation state file is embedded as `List Char` and the
  relevant string primitives (`str.strip`, `str.split(',')`, `int(...)`) are
  given executable models below.
-/

namespace Paperterm

/-! ## Rotation state machine (`artwork.py`, `select_artwork`) -/

/-- The ASCII whitespace characters that Python `int()` strips around a
numeric literal: tab (9), newline (10), vertical tab (11), form feed (12),
carriage return (13) and space (32). -/
def isIntSpace (c : Char) : Bool :=
  c = ' ' || c = '\t' || c = '\n' || c = '\r' || c = Char.ofNat 11 || c = Char.ofNat 12

/-- The ASCII whitespace characters stripped by Python `str.strip()`: those
of `isIntSpace` plus the separator control characters 28-31.  (The non-ASCII
whitespace code points that `str.strip()` and `int()` also accept are outside
this model; the theorems that depend on parsing restrict the state-file
content to ASCII.) -/
def isStripSpace (c : Char) : Bool :=
  isIntSpace c || c = Char.ofNat 28 || c = Char.ofNat 29 || c = Char.ofNat 30 ||
    c = Char.ofNat 31

/-- Remove leading and trailing characters satisfying `p`. -/
def pyStripWith (p : Char → Bool) (cs : List Char) : List Char :=
  ((cs.dropWhile p).reverse.dropWhile p).reverse

/-- Model of Python `str.strip()` on ASCII text. -/
def pyStrip (cs : List Char) : List Char :=
  pyStripWith isStripSpace cs

/-- Model of Python `str.split(',')`: split on every comma; the result is
never empty (`''.split(',') == ['']`). -/
def splitOnComma : List Char → List (List Char)
  | [] => [[]]
  | c :: rest =>
    match splitOnComma rest with
    | [] => [[c]]
    | h :: t => if c = ',' then [] :: h :: t else (c :: h) :: t

/-- Numeric value of a non-empty all-digit character list (most significant
digit first). -/
def digitsVal (cs : List Char) : Nat :=
  cs.foldl (fun a c => 10 * a + (c.toNat - 48)) 0

/-- After the first digit of a Python integer literal: every character must
be an ASCII digit, except that single underscores may appear between digits
(`int("1_0") = 10`, while `"1__0"`, `"1_"`, `"_1"` raise `ValueError`). -/
def groupedTail : List Char → Bool
  | [] => true
  | '_' :: rest =>
    (match rest with
     | [] => false
     | r :: _ => r.isDigit) && groupedTail rest
  | c :: rest => c.isDigit && groupedTail rest

/-- A valid unsigned Python integer literal body: a digit followed by
digits with single underscores allowed strictly between digits. -/
def groupedDigits : List Char → Bool
  | [] => false
  | c :: rest => c.isDigit && groupedTail rest

/-- Model of Python `int(s)` on ASCII decimal text: strip surrounding
`int()`-whitespace, allow one optional sign, then underscore-grouped digits;
any other content raises `ValueError`, modelled as `none`.  (Validated
against CPython on exhaustive fuzzing over ASCII strings; non-ASCII digits
and whitespace are outside the model.) -/
def pyInt? (s : List Char) : Option Int :=
  match pyStripWith isIntSpace s with
  | [] => none
  | '+' :: rest =>
    if groupedDigits rest then
      some (Int.ofNat (digitsVal (rest.filter (fun c => c != '_')))) else none
  | '-' :: rest =>
    if groupedDigits rest then
      some (-(Int.ofNat (digitsVal (rest.filter (fun c => c != '_'))))) else none
  | cs =>
    if groupedDigits cs then
      some (Int.ofNat (digitsVal (cs.filter (fun c => c != '_')))) else none

/-- The decimal rendering of a natural number, as written by Python
`f"{n}"`; fuel-based so that it evaluates by kernel reduction. -/
def natToCharsAux : Nat → Nat → List Char → List Char
  | 0, _, acc => acc
  | fuel + 1, n, acc =>
    let d := Char.ofNat (48 + n % 10)
    if n < 10 then d :: acc else natToCharsAux fuel (n / 10) (d :: acc)

/-- Decimal rendering of a natural number. -/
def natToChars (n : Nat) : List Char := natToCharsAux (n + 1) n []

/-- Decimal rendering of an integer, as written by Python `f"{i}"`. -/
def intToChars (i : Int) : List Char :=
  if i < 0 then '-' :: natToChars i.natAbs else natToChars i.toNat

/-- State loading step of `select_artwork` (`artwork.py` lines 85-98).

The file content (if the file exists) is stripped and split on commas, then
`current_index = int(parts[0])` and
`call_count = int(parts[1]) if len(parts) > 1 else 0` run inside a
`try/except (ValueError, IOError): pass` block over the initial values
`(0, 0)`.  Python executes the two assignments in order, so if the first
field fails to parse the loaded state is `(0, 0)`, while if the first field
parses and the second does not, the parsed index is kept and only the count
stays `0`. -/
def loadState : Option (List Char) → Int × Int
  | none => (0, 0)
  | some content =>
    match splitOnComma (pyStrip content) with
    | [] => (0, 0)
    | p0 :: rest =>
      match pyInt? p0 with
      | none => (0, 0)
      | some i =>
        match rest with
        | [] => (i, 0)
        | p1 :: _ =>
          match pyInt? p1 with
          | none => (i, 0)
          | some c => (i, c)

/-- The first comma-separated field of a state-file content, as parsed by
`select_artwork`. -/
def firstField (content : List Char) : List Char :=
  (splitOnComma (pyStrip content)).headD []

/-- The update step of `select_artwork` (`artwork.py` lines 100-104) over the
loaded state `st` for a collection of `n` items:
`call_count += 1; if call_count >= rotation_interval: current_index =
(current_index + 1) % n; call_count = 0`.  Python `%` on the positive
modulus `n` agrees with `Int.emod`. -/
def rotateStep (n : Nat) (rotation_interval : Int) (st : Int × Int) : Int × Int :=
  if rotation_interval ≤ st.2 + 1 then ((st.1 + 1) % (n : Int), 0)
  else (st.1, st.2 + 1)

/-- The final lookup index `current_index % len(files)` of `select_artwork`
(`artwork.py` line 114). -/
def selectedIndex (n : Nat) (state : Option (List Char)) (rotation_interval : Int) : Nat :=
  ((rotateStep n rotation_interval (loadState state)).1 % (n : Int)).toNat

/-- The state text `f"{current_index},{call_count}"` persisted by
`select_artwork` (`artwork.py` line 110). -/
def savedStateChars (n : Nat) (state : Option (List Char)) (rotation_interval : Int) :
    List Char :=
  intToChars (rotateStep n rotation_interval (loadState state)).1 ++
    ',' :: intToChars (rotateStep n rotation_interval (loadState state)).2

/-- For a non-empty collection the final lookup index is in bounds: Python
`%` on a positive modulus always lands in `[0, n)`. -/
theorem selectedIndex_lt (n : Nat) (state : Option (List Char))
    (rotation_interval : Int) (h : 0 < n) :
    selectedIndex n state rotation_interval < n := by
  unfold selectedIndex
  have hn : (0 : Int) < (n : Int) := by exact_mod_cast h
  have h1 : 0 ≤ (rotateStep n rotation_interval (loadState state)).1 % (n : Int) :=
    Int.emod_nonneg _ (by omega)
  have h2 : (rotateStep n rotation_interval (loadState state)).1 % (n : Int) < (n : Int) :=
    Int.emod_lt_of_pos _ hn
  omega

/-- Model of `select_artwork` (`artwork.py` lines 63-114), starting from the
already-listed collection `files`.

* empty collection: returns `none` (`if not files: return None`);
* loads `(current_index, call_count)` via `loadState`, updates it via
  `rotateStep`;
* the new state `f"{current_index},{call_count}"` is written back
  (write failures are ignored and do not affect the returned value);
* returns `files[current_index % len(files)]`.

The result carries the selected element together with the persisted state
text. -/
def select_artwork {α : Type} (files : List α) (state : Option (List Char))
    (rotation_interval : Int) : Option (α × List Char) :=
  if h : 0 < files.length then
    some (files.get ⟨selectedIndex files.length state rotation_interval,
        selectedIndex_lt _ _ _ h⟩,
      savedStateChars files.length state rotation_interval)
  else none

/-- `k` consecutive invocations of `select_artwork`, each one reading the
state text persisted by the previous call (the first call starts from the
given state, e.g. `none` for a missing file).  Each entry records the
selected element together with the state text persisted by that call. -/
def selectSeq {α : Type} (files : List α) (rotation_interval : Int) :
    Nat → Option (List Char) → List (Option (α × List Char))
  | 0, _ => []
  | k + 1, st =>
    match select_artwork files st rotation_interval with
    | none => none :: selectSeq files rotation_interval k st
    | some (a, s) => some (a, s) :: selectSeq files rotation_interval k (some s)

example : pyInt? ['3'] = some 3 := by decide
example : pyInt? ['a', 'b', 'c'] = none := by decide
example : pyInt? ['-', '5'] = some (-5) := by decide
example : pyInt? ['1', '_', '0'] = some 10 := by decide
example : pyInt? ['-', '1', '_', '0'] = some (-10) := by decide
example : pyInt? ['1', '_', '_', '0'] = none := by decide
example : pyInt? ['1', '_'] = none := by decide
example : pyInt? ['_', '1'] = none := by decide
example : pyInt? [' ', '+', '4', '2', '\n'] = some 42 := by decide
example : pyInt? [Char.ofNat 28, '3'] = none := by decide
example : pyStrip [Char.ofNat 28, '3', ',', '1', Char.ofNat 29] = ['3', ',', '1'] := by decide
example : loadState (some ['3', ',', 'a', 'b', 'c']) = (3, 0) := by decide
example : loadState (some ['0', ',', '-', '5']) = (0, -5) := by decide
example : intToChars (-5) = ['-', '5'] := by decide
example :
    (selectSeq [0, 1, 2, 3, 4] 3 4 none).map (Option.map Prod.fst) =
      [some 0, some 0, some 1, some 1] := by decide

/-! ## E-ink reduction geometry (`artwork.py`, `optimize_for_eink`)

The source computes the resize geometry in Python floats (IEEE-754 double
precision).  `roundF` below is double rounding on `ℚ`: round to 53
significant bits, to nearest, ties to even.  It agrees with a double
throughout the normal range; the subnormal and overflow regimes are not
modelled, so the general theorem about the geometry bounds the target
dimensions (`≤ 2^30`) to keep every intermediate quantity normal.  Rounding
is applied exactly where CPython produces a double:

* `img.width / img.height` and `width / height` are int / int true
  divisions, which CPython rounds correctly in one step;
* `width / img_ratio` and `height * img_ratio` first convert the int
  operand to a double (exact for values `< 2^53`), then round the division
  or multiplication result. -/

/-- Default e-ink target dimensions (`artwork.py` lines 21-22). -/
def KINDLE_PW5_WIDTH : Nat := 1236

/-- Default e-ink target height. -/
def KINDLE_PW5_HEIGHT : Nat := 1648

/-- Fuel-based binary logarithm (`natLog2 n` is the floor of `log2 n` for
`n ≥ 1`; fuel `n` suffices since `n / 2` at least halves). -/
def natLog2Aux : Nat → Nat → Nat
  | 0, _ => 0
  | fuel + 1, n => if n < 2 then 0 else natLog2Aux fuel (n / 2) + 1

/-- Floor binary logarithm of a natural number. -/
def natLog2 (n : Nat) : Nat := natLog2Aux n n

/-- The binade exponent of a positive rational: `expOf q` is the unique
`e` with `2^e ≤ q < 2^(e+1)` (`expOf_spec`, `expOf_unique`).  The first
candidate from the numerator/denominator logarithms is off by at most one,
and the comparisons pick the right neighbour. -/
def expOf (q : ℚ) : ℤ :=
  let e0 : ℤ := (natLog2 q.num.toNat : ℤ) - (natLog2 q.den : ℤ)
  if (2 : ℚ) ^ (e0 + 1) ≤ q then e0 + 1
  else if (2 : ℚ) ^ e0 ≤ q then e0
  else e0 - 1

/-- Round a rational to the nearest integer, ties to even. -/
def roundTiesEven (r : ℚ) : ℤ :=
  if Int.fract r < 1 / 2 then ⌊r⌋
  else if 1 / 2 < Int.fract r then ⌊r⌋ + 1
  else if ⌊r⌋ % 2 = 0 then ⌊r⌋ else ⌊r⌋ + 1

/-- Round a positive rational to 53 significant bits (nearest, ties to
even): the double-precision rounding of the normal range. -/
def roundPos (q : ℚ) : ℚ :=
  (roundTiesEven (q / 2 ^ (expOf q - 52)) : ℚ) * 2 ^ (expOf q - 52)

/-- IEEE-754 double rounding of a rational (normal range; see the section
comment). -/
def roundF (q : ℚ) : ℚ :=
  if q < 0 then -roundPos (-q) else if q = 0 then 0 else roundPos q

/-- Geometry computed by one successful run of `optimize_for_eink`. -/
structure EinkGeom where
  canvasW : Nat
  canvasH : Nat
  newW : Nat
  newH : Nat
  pasteX : Nat
  pasteY : Nat
  deriving DecidableEq, Repr

/-- The geometric core of `optimize_for_eink` (`artwork.py` lines 144-175),
with the double-precision arithmetic of the source modelled by `roundF`:

* `img_ratio = img.width / img.height` and
  `target_ratio = width / height` are correctly rounded doubles;
* if `img_ratio > target_ratio` the image is fit to the target width
  (`new_width = width`, `new_height = int(width / img_ratio)`), otherwise
  to the target height (`new_height = height`,
  `new_width = int(height * img_ratio)`); the int operand is converted to a
  double, the operation result is rounded, and Python `int()` truncates
  toward zero, which on these non-negative values is the floor;
* the canvas is allocated at exactly `(width, height)` and the resized image
  is pasted at `((width - new_width) // 2, (height - new_height) // 2)`.

The subsequent sharpen / contrast / dither / save steps do not change any of
these dimensions. -/
def optimize_geom (srcW srcH targetW targetH : Nat) : EinkGeom :=
  let imgAspect : ℚ := roundF ((srcW : ℚ) / (srcH : ℚ))
  let targetAspect : ℚ := roundF ((targetW : ℚ) / (targetH : ℚ))
  let nw : Nat :=
    if targetAspect < imgAspect then targetW
    else (⌊roundF (roundF (targetH : ℚ) * imgAspect)⌋).toNat
  let nh : Nat :=
    if targetAspect < imgAspect then
      (⌊roundF (roundF (targetW : ℚ) / imgAspect)⌋).toNat
    else targetH
  { canvasW := targetW, canvasH := targetH, newW := nw, newH := nh,
    pasteX := (targetW - nw) / 2, pasteY := (targetH - nh) / 2 }

/-! ## ASCII block digits (`ascii_digits.py`) -/

/-- Total width of each digit in pixels (`ascii_digits.py` line 11). -/
def DIGIT_WIDTH : Nat := 80

/-- Total height of each digit in pixels. -/
def DIGIT_HEIGHT : Nat := 100

/-- Gap between digits in pixels. -/
def DIGIT_GAP : Nat := 20

/-- Width of the colon separator in pixels. -/
def COLON_WIDTH : Nat := 20

/-- The 12-hour conversion at the head of `render_time` (`ascii_digits.py`
lines 219-235): returns `(display_hour, am_pm)`. -/
def hourMeridiem (hour : Nat) (twelve_hour : Bool) : Nat × String :=
  if twelve_hour then
    if hour = 0 then (12, "AM")
    else if hour < 12 then (hour, "AM")
    else if hour = 12 then (12, "PM")
    else (hour - 12, "PM")
  else (hour, "")

/-- Python `f"{n:02d}"` for a non-negative value: pad with a leading zero to
at least two characters. -/
def pad2 (n : Nat) : String :=
  if n < 10 then "0" ++ toString n else toString n

/-- The text produced by `render_time` (`ascii_digits.py` lines 237-239):
the displayed `"HH:MM"` string and the meridiem string. -/
def render_time_strings (hour minute : Nat) (twelve_hour : Bool) : String × String :=
  (pad2 (hourMeridiem hour twelve_hour).1 ++ ":" ++ pad2 minute,
    (hourMeridiem hour twelve_hour).2)

/-- The total pixel width returned by `render_time` (`ascii_digits.py` lines
241-264), as a function of the digit strings being laid out:

* each hour digit advances the cursor by `DIGIT_WIDTH + DIGIT_GAP`;
* one `DIGIT_GAP` is removed before the colon, then `COLON_WIDTH` is added;
* each minute digit adds `DIGIT_WIDTH`, plus a `DIGIT_GAP` after every
  minute digit except the last. -/
def render_time_width (hour minute : Nat) (twelve_hour : Bool) : Nat :=
  let hlen := (pad2 (hourMeridiem hour twelve_hour).1).length
  let mlen := (pad2 minute).length
  (hlen * (DIGIT_WIDTH + DIGIT_GAP) - DIGIT_GAP) + COLON_WIDTH +
    (mlen * DIGIT_WIDTH + (mlen - 1) * DIGIT_GAP)

example : render_time_strings 0 0 true = ("12:00", "AM") := by decide
example : render_time_strings 13 5 true = ("01:05", "PM") := by decide
example : render_time_strings 13 5 false = ("13:05", "") := by decide
example : render_time_width 10 34 true = 380 := by decide

/-! ## Calendar month grid (`calendar_render.py`, `get_month_grid`)

`get_month_grid` calls `calendar.Calendar(firstweekday=6).monthdayscalendar`,
whose proleptic-Gregorian arithmetic (via `datetime.date`) is embedded here:
ordinal day numbers with day 1 = 0001-01-01, a Monday.  With Sunday-first
weeks, the column of a date is `ordinal % 7` (0001-01-07 was a Sunday, so a
Sunday has ordinal divisible by 7). `monthdayscalendar` produces the weeks of
the month with `0` in out-of-month cells; the source converts `0` to `None`
and pads with all-`None` rows to exactly 6 rows.  Flattened, that sequence
is: `firstCol` empty cells, the days `1..days_in_month`, then empty cells to
position 41 (a month spans at most `6 + 31 = 37 ≤ 42` cells, so
`monthdayscalendar` never yields more than 6 weeks and nothing is ever
dropped).  The grid is embedded directly in that flattened form, chunked in
6 rows of 7. -/

/-- Gregorian leap-year predicate (as in Python `calendar.isleap`). -/
def isLeap (y : Nat) : Bool :=
  y % 4 = 0 && (y % 100 ≠ 0 || y % 400 = 0)

/-- Number of days in a month of the proleptic Gregorian calendar. -/
def days_in_month (y m : Nat) : Nat :=
  match m with
  | 1 => 31 | 2 => if isLeap y then 29 else 28 | 3 => 31 | 4 => 30
  | 5 => 31 | 6 => 30 | 7 => 31 | 8 => 31 | 9 => 30 | 10 => 31
  | 11 => 30 | 12 => 31 | _ => 0

/-- Days before January 1 of year `y` (year ≥ 1), as in `datetime`:
`(y-1)*365 + (y-1)//4 - (y-1)//100 + (y-1)//400`, re-associated so that the
natural-number subtraction never truncates. -/
def daysBeforeYear (y : Nat) : Nat :=
  (y - 1) * 365 + ((y - 1) / 4 + (y - 1) / 400) - (y - 1) / 100

/-- Days in year `y` strictly before month `m`. -/
def daysBeforeMonth (y m : Nat) : Nat :=
  ((List.range (m - 1)).map (fun k => days_in_month y (k + 1))).sum

/-- Proleptic Gregorian ordinal of a date (0001-01-01 has ordinal 1). -/
def toOrdinal (y m d : Nat) : Nat :=
  daysBeforeYear y + daysBeforeMonth y m + d

/-- Weekday of a date with Sunday = 0 (columns of a Sunday-first week). -/
def weekdaySun0 (y m d : Nat) : Nat := toOrdinal y m d % 7

/-- The grid cell at flattened position `k` of a month whose first day falls
in column `lead` and which has `nd` days. -/
def gridCell (lead nd k : Nat) : Option Nat :=
  if lead ≤ k ∧ k < lead + nd then some (k - lead + 1) else none

/-- The 6×7 grid of a month with leading offset `lead` and `nd` days. -/
def gridOf (lead nd : Nat) : List (List (Option Nat)) :=
  (List.range 6).map (fun r => (List.range 7).map (fun c => gridCell lead nd (7 * r + c)))

/-- Model of `get_month_grid` (`calendar_render.py` lines 15-48): the 6×7
Sunday-first grid of the month, `none` in out-of-month cells. -/
def get_month_grid (y m : Nat) : List (List (Option Nat)) :=
  gridOf (weekdaySun0 y m 1) (days_in_month y m)

example : weekdaySun0 2026 2 1 = 0 := by decide
example : weekdaySun0 2025 12 25 = 4 := by decide
example :
    get_month_grid 2026 2 =
      [[some 1, some 2, some 3, some 4, some 5, some 6, some 7],
       [some 8, some 9, some 10, some 11, some 12, some 13, some 14],
       [some 15, some 16, some 17, some 18, some 19, some 20, some 21],
       [some 22, some 23, some 24, some 25, some 26, some 27, some 28],
       [none, none, none, none, none, none, none],
       [none, none, none, none, none, none, none]] := by decide

/-! ## Zone layout (`render.py`) -/

/-- Canvas width (`render.py` line 30). -/
def WIDTH : Nat := 1236

/-- Canvas height. -/
def HEIGHT : Nat := 1648

/-- Outer margin. -/
def MARGIN : Nat := 30

/-- Time hero zone height (`render.py` line 35). -/
def TIME_ZONE_HEIGHT : Nat := 320

/-- Middle (weather + calendar) zone height. -/
def MIDDLE_ZONE_HEIGHT : Nat := 1048

/-- Reminders zone height. -/
def REMINDERS_ZONE_HEIGHT : Nat := 220

/-- Weather zone width. -/
def WEATHER_ZONE_WIDTH : Nat := 350

/-- Calendar zone width (`render.py` line 41). -/
def CALENDAR_ZONE_WIDTH : Nat := WIDTH - 2 * MARGIN - WEATHER_ZONE_WIDTH

/-- An axis-aligned zone rectangle. -/
structure Rect where
  x : Nat
  y : Nat
  w : Nat
  h : Nat
  deriving DecidableEq, Repr

/-- The layout constants a dashboard render is built from (`render.py` lines
29-41); the shipped program fixes them to the module constants above. -/
structure LayoutConstants where
  width : Nat
  height : Nat
  margin : Nat
  timeH : Nat
  middleH : Nat
  remindersH : Nat
  weatherW : Nat
  deriving DecidableEq, Repr

/-- The four zone rectangles of the dashboard. -/
structure Zones where
  time : Rect
  weather : Rect
  calendar : Rect
  reminders : Rect
  deriving DecidableEq, Repr

/-- The zone rectangles exactly as each `render_*_zone` method computes them
(`render.py` lines 231-235, 301-305, 370-374, 409-413). -/
def zoneLayout (c : LayoutConstants) : Zones :=
  { time := ⟨c.margin, c.margin, c.width - 2 * c.margin, c.timeH⟩,
    weather := ⟨c.margin, c.margin + c.timeH, c.weatherW, c.middleH⟩,
    calendar := ⟨c.margin + c.weatherW, c.margin + c.timeH,
      c.width - 2 * c.margin - c.weatherW, c.middleH⟩,
    reminders := ⟨c.margin, c.margin + c.timeH + c.middleH,
      c.width - 2 * c.margin, c.remindersH⟩ }

/-- A configuration-error value (the fatal zone-geometry case of the spec). -/
inductive ConfigError where
  | zoneGeometry (msg : String)
  deriving DecidableEq, Repr

/-- Startup geometry step of `DashboardRenderer.render` (`render.py` lines
512-555): the renderer computes each zone rectangle inline and begins
drawing; no geometry validation of any kind is performed, so the step
returns the zones for every choice of constants and has no error path. -/
def renderLayout (c : LayoutConstants) : Except ConfigError Zones :=
  .ok (zoneLayout c)

/-- The shipped layout constants of `render.py`. -/
def shippedLayout : LayoutConstants :=
  { width := WIDTH, height := HEIGHT, margin := MARGIN,
    timeH := TIME_ZONE_HEIGHT, middleH := MIDDLE_ZONE_HEIGHT,
    remindersH := REMINDERS_ZONE_HEIGHT, weatherW := WEATHER_ZONE_WIDTH }

/-! ## Weather zone call binding (`render.py` / `weather_render.py`) -/

/-- A Python exception escaping the renderer. -/
inductive PyError where
  | typeError (unexpectedKeyword : String)
  deriving DecidableEq, Repr

/-- The parameter names accepted by `render_weather_zone`
(`weather_render.py` lines 220-224). -/
def render_weather_zone_accepted : List String :=
  ["draw", "x", "y", "width", "height", "temperature", "unit", "condition",
   "high", "low", "fonts", "city"]

/-- The keyword arguments passed by
`DashboardRenderer.render_weather_zone_wrapper` at the call on `render.py`
lines 341-358. -/
def weather_call_kwargs : List String :=
  ["draw", "x", "y", "width", "height", "temperature", "unit", "condition",
   "high", "low", "fonts", "city", "sunrise", "sunset", "wind_speed",
   "precip_chance"]

/-- Python call binding for a keyword-only call: if any keyword argument is
not among the callee parameter names, the call raises `TypeError` naming the
first unexpected keyword; otherwise the call proceeds. -/
def bindCall (params kwargs : List String) : Except PyError Unit :=
  match kwargs.filter (fun k => !params.contains k) with
  | [] => .ok ()
  | k :: _ => .error (.typeError k)

/-- Model of `render_weather_zone_wrapper` (`render.py` lines 291-358): with
no weather data it draws a placeholder text and returns; with weather data it
invokes `render_weather_zone` with the keyword arguments of
`weather_call_kwargs`. -/
def render_weather_zone_wrapper (weatherPresent : Bool) : Except PyError Unit :=
  if weatherPresent then bindCall render_weather_zone_accepted weather_call_kwargs
  else .ok ()

/-- Model of `DashboardRenderer.render` (`render.py` lines 512-576) at the
level of exception flow.  A failed weather fetch yields `weatherPresent =
false` (`fetch_weather` catches every exception and returns `None`); a
missing or unreadable reminders file is caught inside `_load_reminders`
(which then returns `[]`); missing font files fall back to the built-in
default inside `_load_fonts`; the time, calendar and reminders zones and the
final save draw unconditionally on the in-memory canvas.  The only call in
the pipeline that can raise is the weather-zone call, so the model sequences
it and returns `True` as the source does. -/
def renderDashboard (weatherPresent remindersPresent fontsPresent : Bool) :
    Except PyError Bool := do
  let _ := remindersPresent
  let _ := fontsPresent
  let _ ← render_weather_zone_wrapper weatherPresent
  pure true

example : renderDashboard true true true = .error (.typeError "sunrise") := rfl
example : renderDashboard false false false = .ok true := rfl

/-! ## Claims -/

/-- C1 (counterexample): from a fresh (missing) state file with
`rotation_interval = 3` over a 5-item collection, the four consecutive calls
select the items at indices `[0, 0, 1, 1]`, not `[0, 0, 0, 1]` as claimed:
on the 3rd call the persisted count reaches the interval, resets to 0, and
the index advances, so the 3rd call already selects index 1. -/
theorem C1_sequence_counterexample :
    (selectSeq [0, 1, 2, 3, 4] 3 4 none).map (Option.map Prod.fst) =
      [some 0, some 0, some 1, some 1] ∧
    (selectSeq [0, 1, 2, 3, 4] 3 4 none).map (Option.map Prod.fst) ≠
      [some 0, some 0, some 0, some 1] := by decide

/-- C1 (amended): from a fresh (missing) state file with
`rotation_interval = 3` over a 5-item collection, four consecutive calls to
`select_artwork` select the items at indices `[0, 0, 1, 1]`; the persisted
states after the calls are `"0,1"`, `"0,2"`, `"1,0"`, `"1,1"`: the count
resets to 0 exactly on every 3rd call (at which point the index advances),
and the sequence is reproducible from any clean state. -/
theorem C1_rotation_sequence :
    selectSeq [0, 1, 2, 3, 4] 3 4 none =
      [some (0, ['0', ',', '1']), some (0, ['0', ',', '2']),
       some (1, ['1', ',', '0']), some (1, ['1', ',', '1'])] := by decide

/-- C2: whenever weather data is present, `DashboardRenderer.render` raises
`TypeError` out of the compositor (the wrapper passes the keyword arguments
`sunrise`, `sunset`, `wind_speed`, `precip_chance`, which
`render_weather_zone` does not accept), so no dashboard is saved; only the
weather-absent runs complete.  This contradicts the claim that one full
render never raises and always produces a saved raster. -/
theorem C2_weather_zone_type_error :
    (∀ remindersPresent fontsPresent : Bool,
      renderDashboard true remindersPresent fontsPresent =
        .error (.typeError "sunrise")) ∧
    (∀ remindersPresent fontsPresent : Bool,
      renderDashboard false remindersPresent fontsPresent = .ok true) ∧
    bindCall render_weather_zone_accepted weather_call_kwargs =
      .error (.typeError "sunrise") :=
  ⟨fun _ _ => rfl, fun _ _ => rfl, rfl⟩

/-- C3 (counterexample): a zone layout whose fixed heights plus margins
exceed the canvas height (time-zone height 1500 on the 1648-pixel canvas:
1500 + 1048 + 220 + 2·30 = 2828 > 1648) raises no configuration error — the
render startup computes its zone rectangles anyway, and the reminders zone
starts at y = 2578, past the canvas bottom, i.e. the violation is silently
clipped. -/
theorem C3_counterexample :
    1500 + 1048 + 220 + 2 * 30 > 1648 ∧
    renderLayout ⟨1236, 1648, 30, 1500, 1048, 220, 350⟩ =
      .ok (zoneLayout ⟨1236, 1648, 30, 1500, 1048, 220, 350⟩) ∧
    (zoneLayout ⟨1236, 1648, 30, 1500, 1048, 220, 350⟩).reminders.y +
      (zoneLayout ⟨1236, 1648, 30, 1500, 1048, 220, 350⟩).reminders.h > 1648 :=
  ⟨by norm_num, rfl, by decide⟩

/-- C3 (amended): the renderer performs no startup validation of zone
geometry: for every choice of layout constants, violating or not, the zone
rectangles are computed and drawing proceeds (a violating layout is silently
clipped, not rejected).  The shipped constants satisfy the invariant
exactly: `TIME_ZONE_HEIGHT + MIDDLE_ZONE_HEIGHT + REMINDERS_ZONE_HEIGHT +
2·MARGIN = HEIGHT` (320 + 1048 + 220 + 60 = 1648). -/
theorem C3_no_layout_validation :
    (∀ c : LayoutConstants, renderLayout c = .ok (zoneLayout c)) ∧
    TIME_ZONE_HEIGHT + MIDDLE_ZONE_HEIGHT + REMINDERS_ZONE_HEIGHT + 2 * MARGIN =
      HEIGHT :=
  ⟨fun _ => rfl, by decide⟩

/-- C4 (counterexample): the corrupted state-file content `"3,abc"` does not
behave like a missing state file: `int(parts[0])` succeeds and assigns the
index 3 before `int(parts[1])` raises, so the loaded cursor is `(3, 0)`, not
`(0, 0)`; over a 5-item collection with `rotation_interval = 1` the call
selects index 4 whereas a missing state file selects index 1. -/
theorem C4_counterexample :
    loadState (some ['3', ',', 'a', 'b', 'c']) = (3, 0) ∧
    loadState (some ['3', ',', 'a', 'b', 'c']) ≠ loadState none ∧
    (select_artwork [0, 1, 2, 3, 4] (some ['3', ',', 'a', 'b', 'c']) 1).map Prod.fst =
      some 4 ∧
    (select_artwork [0, 1, 2, 3, 4] none 1).map Prod.fst = some 1 := by decide

/-- C4 (amended): for every corrupted ASCII state-file content whose FIRST
comma-separated field is not a valid Python integer literal (e.g. entirely
non-numeric text), `select_artwork` behaves identically to a run with a
missing state file: the loaded cursor resets to `(0, 0)` and no error
surfaces.  (When the first field parses and a later field is malformed, the
parsed index is kept and only the count resets to 0 — see the
counterexample.  The ASCII restriction marks the model's scope: the parse
model `pyInt?` agrees with CPython on all ASCII content, including
underscore-grouped literals, but not on non-ASCII digits or whitespace; the
program itself only ever writes ASCII.) -/
theorem C4_first_field_corruption_resets (content : List Char)
    (hascii : ∀ c ∈ content, c.toNat < 128)
    (h : pyInt? (firstField content) = none) :
    loadState (some content) = (0, 0) ∧
    ∀ (α : Type) (files : List α) (rotation_interval : Int),
      select_artwork files (some content) rotation_interval =
        select_artwork files none rotation_interval := by
  have hload : loadState (some content) = (0, 0) := by
    unfold firstField at h
    cases hsp : splitOnComma (pyStrip content) with
    | nil => simp only [loadState, hsp]
    | cons p0 rest =>
      rw [hsp] at h
      simp only [List.headD_cons] at h
      simp only [loadState, hsp, h]
  refine ⟨hload, fun α files rotation_interval => ?_⟩
  have hsame : loadState (some content) = loadState none := hload
  simp only [select_artwork, selectedIndex, savedStateChars, hsame]

/-- C4 witness: the ASCII content `"abc"` is first-field corrupted and
behaves like a missing state file. -/
theorem C4_witness :
    (∀ c ∈ ['a', 'b', 'c'], Char.toNat c < 128) ∧
    pyInt? (firstField ['a', 'b', 'c']) = none ∧
    loadState (some ['a', 'b', 'c']) = (0, 0) ∧
    select_artwork [7, 8] (some ['a', 'b', 'c']) 2 = select_artwork [7, 8] none 2 := by
  have ha : ∀ c ∈ ['a', 'b', 'c'], Char.toNat c < 128 := by decide
  have h : pyInt? (firstField ['a', 'b', 'c']) = none := by decide
  exact ⟨ha, h, (C4_first_field_corruption_resets _ ha h).1,
    (C4_first_field_corruption_resets _ ha h).2 ℕ [7, 8] 2⟩

/-- C8 (counterexample): with the (hand-editable) state-file content
`"0,-5"` — the program only ever writes non-negative counts — a call with
`rotation_interval = -10` rotates (`-4 ≥ -10`) and selects index 1 of a
2-item collection, while `rotation_interval = 1` does not rotate (`-4 < 1`)
and selects index 0, so `rotation_interval ≤ 0` is NOT identical to
`rotation_interval = 1` for every state-file content. -/
theorem C8_counterexample :
    select_artwork [0, 1] (some ['0', ',', '-', '5']) (-10) ≠
      select_artwork [0, 1] (some ['0', ',', '-', '5']) 1 ∧
    (select_artwork [0, 1] (some ['0', ',', '-', '5']) (-10)).map Prod.fst = some 1 ∧
    (select_artwork [0, 1] (some ['0', ',', '-', '5']) 1).map Prod.fst = some 0 := by
  decide

/-- C8 (amended): for every ASCII state-file content whose loaded call
count is non-negative (which includes a missing file, every corrupted file,
and every state the program itself persists) and every collection,
`select_artwork` with any `rotation_interval ≤ 0` behaves identically to
`rotation_interval = 1` (both always rotate), with no division error or
non-termination.  (The ASCII restriction marks the scope on which the parse
model agrees with CPython — see `C4_first_field_corruption_resets`; a
hand-written negative count such as `"0,-5"` fails the count hypothesis and
genuinely separates the two intervals — see the counterexample.) -/
theorem C8_nonpositive_interval (α : Type) (files : List α)
    (state : Option (List Char)) (rotation_interval : Int)
    (hascii : ∀ cs ∈ state, ∀ c ∈ cs, Char.toNat c < 128)
    (hi : rotation_interval ≤ 0) (hc : 0 ≤ (loadState state).2) :
    select_artwork files state rotation_interval = select_artwork files state 1 := by
  have hstep : rotateStep files.length rotation_interval (loadState state) =
      rotateStep files.length 1 (loadState state) := by
    unfold rotateStep
    rw [if_pos (by omega), if_pos (by omega)]
  simp only [select_artwork, selectedIndex, savedStateChars, hstep]

/-- C8 witness: from the persisted ASCII state `"2,0"` (loaded count 0),
interval `-3` coincides with interval `1`. -/
theorem C8_witness :
    (∀ cs ∈ some ['2', ',', '0'], ∀ c ∈ cs, Char.toNat c < 128) ∧
    (-3 : Int) ≤ 0 ∧ (0 : Int) ≤ (loadState (some ['2', ',', '0'])).2 ∧
    select_artwork [4, 5, 6] (some ['2', ',', '0']) (-3) =
      select_artwork [4, 5, 6] (some ['2', ',', '0']) 1 := by
  have ha : ∀ cs ∈ some ['2', ',', '0'], ∀ c ∈ cs, Char.toNat c < 128 := by
    intro cs hcs
    rw [Option.mem_def, Option.some_inj] at hcs
    subst hcs
    decide
  exact ⟨ha, by norm_num, by decide,
    C8_nonpositive_interval ℕ [4, 5, 6] (some ['2', ',', '0']) (-3) ha (by norm_num)
      (by decide)⟩

/-- C9: for every non-empty collection and arbitrary persisted state-file
content (including an out-of-range index) and arbitrary rotation interval,
`select_artwork` returns an element of the collection: the final lookup
index is `current_index % len(files)`, which always lies in bounds. -/
theorem C9_selection_in_bounds (α : Type) (files : List α)
    (state : Option (List Char)) (rotation_interval : Int)
    (h : 0 < files.length) :
    ∃ (a : α) (s : List Char),
      select_artwork files state rotation_interval = some (a, s) ∧ a ∈ files := by
  unfold select_artwork
  rw [dif_pos h]
  exact ⟨_, _, rfl, List.get_mem _ _ _⟩

/-- C9 witness: a 2-item collection with a persisted index (7) far past the
collection length still yields an element of the collection. -/
theorem C9_witness :
    0 < [10, 20].length ∧
    ∃ (a : ℕ) (s : List Char),
      select_artwork [10, 20] (some ['7', ',', '0']) 1 = some (a, s) ∧ a ∈ [10, 20] :=
  ⟨by decide, C9_selection_in_bounds ℕ [10, 20] (some ['7', ',', '0']) 1 (by decide)⟩

/-- A month has between 28 and 31 days. -/
theorem days_in_month_bounds (y m : Nat) (h1 : 1 ≤ m) (h2 : m ≤ 12) :
    28 ≤ days_in_month y m ∧ days_in_month y m < 32 := by
  interval_cases m <;> simp only [days_in_month] <;> (try split) <;> omega

/-- The grid of any month shape that can occur (first-day column `< 7`,
between 28 and 31 days) has 6 rows of 7 cells, exactly `nd` non-empty
cells, and its first non-empty cell at flattened position `lead`. -/
theorem gridOf_props :
    ∀ lead < 7, ∀ nd < 32, 28 ≤ nd →
      (gridOf lead nd).length = 6 ∧
      (∀ row ∈ gridOf lead nd, row.length = 7) ∧
      ((gridOf lead nd).flatten.countP (fun c => c.isSome)) = nd ∧
      (gridOf lead nd).flatten.findIdx (fun c => c.isSome) = lead := by decide

/-- C5: for every year ≥ 1 and month 1-12, the calendar month grid has
exactly 6 rows of 7 cells each, exactly `days_in_month y m` non-empty cells,
and the column of the first non-empty cell (its flattened position, which
lies in the first row) equals the weekday of the 1st of the month with
Sunday = 0. -/
theorem C5_calendar_grid (y m : Nat) (hy : 1 ≤ y) (h1 : 1 ≤ m) (h2 : m ≤ 12) :
    (get_month_grid y m).length = 6 ∧
    (∀ row ∈ get_month_grid y m, row.length = 7) ∧
    ((get_month_grid y m).flatten.countP (fun c => c.isSome)) = days_in_month y m ∧
    (get_month_grid y m).flatten.findIdx (fun c => c.isSome) = weekdaySun0 y m 1 := by
  have hb := days_in_month_bounds y m h1 h2
  have hl : weekdaySun0 y m 1 < 7 := Nat.mod_lt _ (by norm_num)
  exact gridOf_props _ hl _ hb.2 hb.1

/-- C5 witness: February 2026 (whose 1st falls on a Sunday). -/
theorem C5_witness :
    1 ≤ 2026 ∧ 1 ≤ 2 ∧ 2 ≤ 12 ∧
    ((get_month_grid 2026 2).flatten.countP (fun c => c.isSome)) = days_in_month 2026 2 ∧
    (get_month_grid 2026 2).flatten.findIdx (fun c => c.isSome) = weekdaySun0 2026 2 1 :=
  ⟨by norm_num, by norm_num, by norm_num,
    (C5_calendar_grid 2026 2 (by norm_num) (by norm_num) (by norm_num)).2.2.1,
    (C5_calendar_grid 2026 2 (by norm_num) (by norm_num) (by norm_num)).2.2.2⟩

/-- C6: `render_time` with `twelve_hour = True` maps hour 0 to displayed
hour "12" with meridiem "AM", hour 12 to "12" with "PM", and every other
hour to `hour mod 12` zero-padded to two digits, with "AM" for hours 1-11
and "PM" for hours 13-23; with `twelve_hour = False` the hour is displayed
as-is and the meridiem string is empty.  In particular `(0, 0, True)`
displays "12:00" "AM", `(13, 5, True)` displays "01:05" "PM", and
`(13, 5, False)` displays "13:05" with no meridiem. -/
theorem C6_render_time (h m : Nat) (hh : h < 24) (hm : m < 60) :
    render_time_strings h m false = (pad2 h ++ ":" ++ pad2 m, "") ∧
    (render_time_strings h m true).2 = (if h < 12 then "AM" else "PM") ∧
    (render_time_strings h m true).1 =
      pad2 (if h = 0 ∨ h = 12 then 12 else h % 12) ++ ":" ++ pad2 m ∧
    render_time_strings 0 0 true = ("12:00", "AM") ∧
    render_time_strings 13 5 true = ("01:05", "PM") ∧
    render_time_strings 13 5 false = ("13:05", "") := by
  refine ⟨rfl, ?_, ?_, by decide, by decide, by decide⟩
  · interval_cases h <;> rfl
  · interval_cases h <;> rfl

/-- C6 witness: hour 13, minute 5. -/
theorem C6_witness :
    13 < 24 ∧ 5 < 60 ∧
    (render_time_strings 13 5 true).2 = (if 13 < 12 then "AM" else "PM") ∧
    (render_time_strings 13 5 true).1 =
      pad2 (if 13 = 0 ∨ 13 = 12 then 12 else 13 % 12) ++ ":" ++ pad2 5 :=
  ⟨by norm_num, by norm_num,
    (C6_render_time 13 5 (by norm_num) (by norm_num)).2.1,
    (C6_render_time 13 5 (by norm_num) (by norm_num)).2.2.1⟩

/-- A value below 100 is rendered by `f"{n:02d}"` as exactly two
characters. -/
theorem pad2_length : ∀ n < 100, (pad2 n).length = 2 := by decide

/-- C10: for every hour 0-23, minute 0-59, and either clock mode,
`render_time` returns a total width of 380 pixels: four 80-pixel digits, two
20-pixel inter-digit gaps, and the 20-pixel colon, independent of which
digits are drawn. -/
theorem C10_render_time_width (h m : Nat) (tw : Bool) (hh : h < 24) (hm : m < 60) :
    render_time_width h m tw = 380 := by
  have hdisp : (hourMeridiem h tw).1 < 100 := by
    unfold hourMeridiem
    split_ifs <;> omega
  have h1 : (pad2 (hourMeridiem h tw).1).length = 2 := pad2_length _ hdisp
  have h2 : (pad2 m).length = 2 := pad2_length _ (by omega)
  simp [render_time_width, h1, h2, DIGIT_WIDTH, DIGIT_GAP, COLON_WIDTH]

/-- C10 witness: midnight in 12-hour mode. -/
theorem C10_witness :
    0 < 24 ∧ 0 < 60 ∧ render_time_width 0 0 true = 380 :=
  ⟨by norm_num, by norm_num, C10_render_time_width 0 0 true (by norm_num) (by norm_num)⟩

/-- `natLog2Aux` satisfies the floor-log specification when given enough
fuel. -/
theorem natLog2Aux_spec :
    ∀ fuel n, 0 < n → n ≤ fuel →
      2 ^ natLog2Aux fuel n ≤ n ∧ n < 2 ^ (natLog2Aux fuel n + 1) := by
  intro fuel
  induction fuel with
  | zero => intro n h1 h2; omega
  | succ fuel ih =>
    intro n h1 h2
    by_cases hn : n < 2
    · simp only [natLog2Aux, if_pos hn]
      constructor
      · simpa using h1
      · simpa using hn
    · simp only [natLog2Aux, if_neg hn]
      have hrec := ih (n / 2) (by omega) (by omega)
      have hp : (2 : Nat) ^ (natLog2Aux fuel (n / 2) + 1) =
          2 * 2 ^ natLog2Aux fuel (n / 2) := by ring
      have hp2 : (2 : Nat) ^ (natLog2Aux fuel (n / 2) + 1 + 1) =
          2 * 2 ^ (natLog2Aux fuel (n / 2) + 1) := by ring
      omega

/-- `natLog2 n` is the floor binary logarithm of `n ≥ 1`. -/
theorem natLog2_spec (n : Nat) (h : 0 < n) :
    2 ^ natLog2 n ≤ n ∧ n < 2 ^ (natLog2 n + 1) :=
  natLog2Aux_spec n n h (le_refl n)

/-- `expOf` satisfies its binade specification on positive rationals. -/
theorem expOf_spec (q : ℚ) (hq : 0 < q) :
    (2 : ℚ) ^ expOf q ≤ q ∧ q < (2 : ℚ) ^ (expOf q + 1) := by
  have hnum : 0 < q.num := Rat.num_pos.mpr hq
  have hden : 0 < q.den := q.pos
  have hla := natLog2_spec q.num.toNat (by omega)
  have hlb := natLog2_spec q.den hden
  set la := natLog2 q.num.toNat with hla_def
  set lb := natLog2 q.den with hlb_def
  have haQ : (2 : ℚ) ^ (la : ℕ) ≤ (q.num.toNat : ℚ) := by exact_mod_cast hla.1
  have haQ2 : (q.num.toNat : ℚ) < 2 ^ (la + 1 : ℕ) := by exact_mod_cast hla.2
  have hbQ : (2 : ℚ) ^ (lb : ℕ) ≤ (q.den : ℚ) := by exact_mod_cast hlb.1
  have hbQ2 : (q.den : ℚ) < 2 ^ (lb + 1 : ℕ) := by exact_mod_cast hlb.2
  have hbQpos : (0 : ℚ) < (q.den : ℚ) := by exact_mod_cast hden
  have haQpos : (0 : ℚ) < (q.num.toNat : ℚ) := by
    have : 0 < q.num.toNat := by omega
    exact_mod_cast this
  have hq_eq : q = (q.num.toNat : ℚ) / (q.den : ℚ) := by
    rw [show ((q.num.toNat : ℕ) : ℚ) = ((q.num : ℤ) : ℚ) by
      exact_mod_cast congrArg (fun z : ℤ => (z : ℚ)) (Int.toNat_of_nonneg hnum.le)]
    exact (Rat.num_div_den q).symm
  have hwin_up : q < (2 : ℚ) ^ ((la : ℤ) - lb + 1) := by
    have h1 : (q.num.toNat : ℚ) / (q.den : ℚ) < 2 ^ (la + 1 : ℕ) / 2 ^ (lb : ℕ) := by
      rw [div_lt_div_iff₀ hbQpos (by positivity)]
      nlinarith
    rw [hq_eq]
    calc (q.num.toNat : ℚ) / (q.den : ℚ) < 2 ^ (la + 1 : ℕ) / 2 ^ (lb : ℕ) := h1
      _ = (2 : ℚ) ^ ((la : ℤ) - lb + 1) := by
          rw [show ((la : ℤ) - lb + 1) = ((la + 1 : ℕ) : ℤ) - ((lb : ℕ) : ℤ) by push_cast; ring,
            zpow_sub₀ (by norm_num : (2 : ℚ) ≠ 0), zpow_natCast, zpow_natCast]
  have hwin_low : (2 : ℚ) ^ ((la : ℤ) - lb - 1) < q := by
    have h1 : (2 : ℚ) ^ (la : ℕ) / 2 ^ (lb + 1 : ℕ) < (q.num.toNat : ℚ) / (q.den : ℚ) := by
      rw [div_lt_div_iff₀ (by positivity) hbQpos]
      nlinarith
    rw [hq_eq]
    calc (2 : ℚ) ^ ((la : ℤ) - lb - 1)
        = 2 ^ (la : ℕ) / 2 ^ (lb + 1 : ℕ) := by
          rw [show ((la : ℤ) - lb - 1) = ((la : ℕ) : ℤ) - ((lb + 1 : ℕ) : ℤ) by push_cast; ring,
            zpow_sub₀ (by norm_num : (2 : ℚ) ≠ 0), zpow_natCast, zpow_natCast]
      _ < (q.num.toNat : ℚ) / (q.den : ℚ) := h1
  simp only [expOf]
  split_ifs with h1 h2
  · refine ⟨h1, ?_⟩
    calc q < (2 : ℚ) ^ ((la : ℤ) - lb + 1) := hwin_up
      _ ≤ (2 : ℚ) ^ ((la : ℤ) - lb + 1 + 1) :=
          zpow_le_zpow_right₀ (by norm_num) (by omega)
  · exact ⟨h2, hwin_up⟩
  · refine ⟨le_of_lt hwin_low, ?_⟩
    rw [sub_add_cancel]
    exact not_le.mp h2

/-- The binade exponent is unique: any `e` whose window contains `q` is
`expOf q`. -/
theorem expOf_unique (q : ℚ) (e : ℤ) (h1 : (2 : ℚ) ^ e ≤ q) (h2 : q < 2 ^ (e + 1)) :
    expOf q = e := by
  have hq : 0 < q := lt_of_lt_of_le (zpow_pos (by norm_num) e) h1
  obtain ⟨hs1, hs2⟩ := expOf_spec q hq
  by_contra hne
  rcases lt_or_gt_of_ne hne with hlt | hgt
  · have : (2 : ℚ) ^ (expOf q + 1) ≤ 2 ^ e := zpow_le_zpow_right₀ (by norm_num) (by omega)
    linarith
  · have : (2 : ℚ) ^ (e + 1) ≤ 2 ^ expOf q := zpow_le_zpow_right₀ (by norm_num) (by omega)
    linarith

/-- Rounding to nearest (ties even) is within half a unit. -/
theorem roundTiesEven_error (r : ℚ) : |((roundTiesEven r : ℤ) : ℚ) - r| ≤ 1 / 2 := by
  have hf : Int.fract r = r - ⌊r⌋ := rfl
  have h0 : 0 ≤ Int.fract r := Int.fract_nonneg r
  have h1 : Int.fract r < 1 := Int.fract_lt_one r
  unfold roundTiesEven
  split_ifs <;> rw [abs_le] <;> constructor <;> push_cast <;> linarith

/-- Rounding an integer to the nearest integer is the identity. -/
theorem roundTiesEven_intCast (m : ℤ) : roundTiesEven (m : ℚ) = m := by
  have hfr : Int.fract ((m : ℚ)) = 0 := Int.fract_intCast m
  unfold roundTiesEven
  rw [hfr, Int.floor_intCast]
  norm_num

/-- Evaluation rule: a rational strictly inside `[m, m + 1/2)` rounds down
to `m`. -/
theorem roundTiesEven_eval_down (r : ℚ) (m : ℤ) (h1 : (m : ℚ) ≤ r)
    (h2 : r < (m : ℚ) + 1 / 2) : roundTiesEven r = m := by
  have hfl : ⌊r⌋ = m := by
    rw [Int.floor_eq_iff]
    exact ⟨h1, by linarith⟩
  have hfr : Int.fract r < 1 / 2 := by
    rw [show Int.fract r = r - ⌊r⌋ from rfl, hfl]
    linarith
  unfold roundTiesEven
  rw [if_pos hfr, hfl]

/-- The 53-bit rounding of a positive rational has relative error at most
`2^(-53)`. -/
theorem roundPos_error (q : ℚ) (hq : 0 < q) : |roundPos q - q| ≤ q / 2 ^ 53 := by
  have hs : (0 : ℚ) < 2 ^ (expOf q - 52) := zpow_pos (by norm_num) _
  have herr := roundTiesEven_error (q / 2 ^ (expOf q - 52))
  have key : roundPos q - q =
      (((roundTiesEven (q / 2 ^ (expOf q - 52)) : ℤ) : ℚ) - q / 2 ^ (expOf q - 52)) *
        2 ^ (expOf q - 52) := by
    unfold roundPos
    rw [sub_mul, div_mul_cancel₀ _ hs.ne']
  rw [key, abs_mul, abs_of_pos hs]
  have step1 : |((roundTiesEven (q / 2 ^ (expOf q - 52)) : ℤ) : ℚ) -
      q / 2 ^ (expOf q - 52)| * 2 ^ (expOf q - 52) ≤ (1 / 2) * 2 ^ (expOf q - 52) :=
    mul_le_mul_of_nonneg_right herr hs.le
  refine le_trans step1 ?_
  have hlow := (expOf_spec q hq).1
  have heq : (1 / 2 : ℚ) * 2 ^ (expOf q - 52) = 2 ^ expOf q * (1 / 2 ^ 53) := by
    rw [zpow_sub₀ (by norm_num : (2 : ℚ) ≠ 0),
      show ((2 : ℚ) ^ (52 : ℤ)) = 2 ^ (52 : ℕ) by norm_num]
    ring
  rw [heq]
  calc (2 : ℚ) ^ expOf q * (1 / 2 ^ 53) ≤ q * (1 / 2 ^ 53) :=
        mul_le_mul_of_nonneg_right hlow (by norm_num)
    _ = q / 2 ^ 53 := by ring

/-- On positive arguments `roundF` is `roundPos`. -/
theorem roundF_eq_roundPos (q : ℚ) (hq : 0 < q) : roundF q = roundPos q := by
  unfold roundF
  rw [if_neg (by linarith : ¬q < 0), if_neg hq.ne']

/-- Upper relative-error bound of double rounding. -/
theorem roundF_le (q : ℚ) (hq : 0 < q) : roundF q ≤ q * (1 + 1 / 2 ^ 53) := by
  rw [roundF_eq_roundPos q hq]
  have h := (abs_le.mp (roundPos_error q hq)).2
  have hexp : q * (1 + 1 / 2 ^ 53) = q + q / 2 ^ 53 := by ring
  linarith

/-- Lower relative-error bound of double rounding. -/
theorem le_roundF (q : ℚ) (hq : 0 < q) : q * (1 - 1 / 2 ^ 53) ≤ roundF q := by
  rw [roundF_eq_roundPos q hq]
  have h := (abs_le.mp (roundPos_error q hq)).1
  have hexp : q * (1 - 1 / 2 ^ 53) = q - q / 2 ^ 53 := by ring
  linarith

/-- Double rounding preserves positivity. -/
theorem roundF_pos (q : ℚ) (hq : 0 < q) : 0 < roundF q := by
  have h := le_roundF q hq
  have h2 : (0 : ℚ) < 1 - 1 / 2 ^ 53 := by norm_num
  nlinarith

/-- Natural numbers below `2^53` convert to doubles exactly. -/
theorem roundF_natCast (n : ℕ) (hn : n < 2 ^ 53) : roundF (n : ℚ) = n := by
  rcases Nat.eq_zero_or_pos n with h0 | hpos
  · subst h0; simp [roundF]
  · have hq : (0 : ℚ) < (n : ℚ) := by exact_mod_cast hpos
    rw [roundF_eq_roundPos _ hq]
    have hspec := expOf_spec (n : ℚ) hq
    have he52 : expOf (n : ℚ) ≤ 52 := by
      by_contra hgt
      push_neg at hgt
      have h1 : (2 : ℚ) ^ (53 : ℤ) ≤ (2 : ℚ) ^ expOf (n : ℚ) :=
        zpow_le_zpow_right₀ (by norm_num) (by omega)
      have h2 : (2 : ℚ) ^ (53 : ℤ) ≤ (n : ℚ) := le_trans h1 hspec.1
      have h3 : (n : ℚ) < 2 ^ (53 : ℕ) := by exact_mod_cast hn
      rw [show ((2 : ℚ) ^ (53 : ℤ)) = 2 ^ (53 : ℕ) from zpow_natCast 2 53] at h2
      linarith
    obtain ⟨k, hk⟩ : ∃ k : ℕ, (52 : ℤ) - expOf (n : ℚ) = k :=
      ⟨((52 : ℤ) - expOf (n : ℚ)).toNat, by omega⟩
    have hsne : ((2 : ℚ) ^ (expOf (n : ℚ) - 52)) ≠ 0 := (zpow_pos (by norm_num) _).ne'
    have hr : (n : ℚ) / 2 ^ (expOf (n : ℚ) - 52) = (((n * 2 ^ k : ℕ) : ℤ) : ℚ) := by
      rw [div_eq_iff hsne]
      push_cast
      rw [mul_assoc, ← zpow_natCast (2 : ℚ) k, ← zpow_add₀ (by norm_num : (2 : ℚ) ≠ 0),
        show (k : ℤ) + (expOf (n : ℚ) - 52) = 0 by omega]
      simp
    unfold roundPos
    rw [hr, roundTiesEven_intCast]
    push_cast
    rw [mul_assoc, ← zpow_natCast (2 : ℚ) k, ← zpow_add₀ (by norm_num : (2 : ℚ) ≠ 0),
      show (k : ℤ) + (expOf (n : ℚ) - 52) = 0 by omega]
    simp

/-- C7 (counterexample): the scaled dimensions are NOT the exact floors of
uniform min-scaling.  For an 8×206 source into the 1236×1648 target the
program takes the fit-to-height branch and computes
`new_width = int(1648 * (8/206))` in doubles: `8/206` rounds down to
`5596706333042946·2^(-57)`, the product rounds to
`9007199254740991·2^(-47) ≈ 63.9999999999999929`, and `int()` truncates to
63 — while exact uniform scaling by `min(1236/8, 1648/206) = 8` gives
`⌊8·8⌋ = 64`. -/
theorem C7_float_counterexample :
    (optimize_geom 8 206 1236 1648).newW = 63 ∧
    ⌊min ((1236 : ℚ) / 8) ((1648 : ℚ) / 206) * 8⌋ = 64 ∧
    ((optimize_geom 8 206 1236 1648).newW : ℤ) ≠
      ⌊min ((1236 : ℚ) / 8) ((1648 : ℚ) / 206) * 8⌋ := by
  have hA : roundF ((8 : ℚ) / 206) = 5596706333042946 * 2 ^ (-57 : ℤ) := by
    rw [roundF_eq_roundPos _ (by norm_num)]
    unfold roundPos
    rw [expOf_unique ((8 : ℚ) / 206) (-5) (by norm_num) (by norm_num)]
    rw [show ((-5 : ℤ) - 52) = -57 by norm_num]
    rw [roundTiesEven_eval_down ((8 : ℚ) / 206 / 2 ^ (-57 : ℤ)) 5596706333042946
      (by norm_num) (by norm_num)]
    push_cast
    ring
  have hB : roundF ((1236 : ℚ) / 1648) = 6755399441055744 * 2 ^ (-53 : ℤ) := by
    rw [roundF_eq_roundPos _ (by norm_num)]
    unfold roundPos
    rw [expOf_unique ((1236 : ℚ) / 1648) (-1) (by norm_num) (by norm_num)]
    rw [show ((-1 : ℤ) - 52) = -53 by norm_num]
    rw [show (1236 : ℚ) / 1648 / 2 ^ (-53 : ℤ) = ((6755399441055744 : ℤ) : ℚ) by norm_num]
    rw [roundTiesEven_intCast]
    push_cast
    ring
  have hbranch : ¬(roundF ((1236 : ℚ) / 1648) < roundF ((8 : ℚ) / 206)) := by
    rw [hA, hB]
    norm_num
  have hHf : roundF ((1648 : ℚ)) = 1648 := by
    simpa using roundF_natCast 1648 (by norm_num)
  have hInner : roundF ((1648 : ℚ) * (5596706333042946 * 2 ^ (-57 : ℤ))) =
      9007199254740991 * 2 ^ (-47 : ℤ) := by
    rw [roundF_eq_roundPos _ (by positivity)]
    unfold roundPos
    rw [expOf_unique _ 5 (by norm_num) (by norm_num)]
    rw [show ((5 : ℤ) - 52) = -47 by norm_num]
    rw [roundTiesEven_eval_down ((1648 : ℚ) * (5596706333042946 * 2 ^ (-57 : ℤ)) /
      2 ^ (-47 : ℤ)) 9007199254740991 (by norm_num) (by norm_num)]
    push_cast
    ring
  have hnewW : (optimize_geom 8 206 1236 1648).newW = 63 := by
    simp only [optimize_geom, Nat.cast_ofNat]
    rw [if_neg hbranch, hHf, hA, hInner]
    rw [show ⌊(9007199254740991 : ℚ) * 2 ^ (-47 : ℤ)⌋ = 63 by norm_num]
    rfl
  have hmin : ⌊min ((1236 : ℚ) / 8) ((1648 : ℚ) / 206) * 8⌋ = 64 := by
    norm_num [min_def]
  refine ⟨hnewW, hmin, ?_⟩
  rw [hnewW, hmin]
  norm_num

/-- C7 (amended): for every successfully processed input image with positive
source dimensions and target dimensions between 1 and `2^30` (the range on
which the double model is exact-normal; the shipped target is 1236×1648),
the e-ink reduction output has exactly `(target_w, target_h)` dimensions;
one dimension of the resized content exactly equals the corresponding target
dimension, the resized content is never cropped (both scaled dimensions fit
within the target bounds), and it is pasted centered at offsets
`(target - scaled) / 2`, floor-divided.  The scaled dimensions themselves
are the double-arithmetic values, which can fall a pixel below the exact
`⌊min(target_w/src_w, target_h/src_h) · src⌋` (see the counterexample). -/
theorem C7_eink_geometry (srcW srcH tW tH : Nat)
    (hsw : 0 < srcW) (hsh : 0 < srcH)
    (htw : 0 < tW) (htw2 : tW ≤ 2 ^ 30) (hth : 0 < tH) (hth2 : tH ≤ 2 ^ 30) :
    (optimize_geom srcW srcH tW tH).canvasW = tW ∧
    (optimize_geom srcW srcH tW tH).canvasH = tH ∧
    (optimize_geom srcW srcH tW tH).newW ≤ tW ∧
    (optimize_geom srcW srcH tW tH).newH ≤ tH ∧
    (optimize_geom srcW srcH tW tH).pasteX =
      (tW - (optimize_geom srcW srcH tW tH).newW) / 2 ∧
    (optimize_geom srcW srcH tW tH).pasteY =
      (tH - (optimize_geom srcW srcH tW tH).newH) / 2 ∧
    (optimize_geom srcW srcH tW tH).pasteX + (optimize_geom srcW srcH tW tH).newW ≤ tW ∧
    (optimize_geom srcW srcH tW tH).pasteY + (optimize_geom srcW srcH tW tH).newH ≤ tH ∧
    ((optimize_geom srcW srcH tW tH).newW = tW ∨
      (optimize_geom srcW srcH tW tH).newH = tH) := by
  have haq : (0 : ℚ) < (srcW : ℚ) := by exact_mod_cast hsw
  have hbq : (0 : ℚ) < (srcH : ℚ) := by exact_mod_cast hsh
  have hWq : (0 : ℚ) < (tW : ℚ) := by exact_mod_cast htw
  have hHq : (0 : ℚ) < (tH : ℚ) := by exact_mod_cast hth
  have htW30 : (tW : ℚ) ≤ 2 ^ 30 := by exact_mod_cast htw2
  have htH30 : (tH : ℚ) ≤ 2 ^ 30 := by exact_mod_cast hth2
  have hWf : roundF ((tW : ℚ)) = tW :=
    roundF_natCast tW (lt_of_le_of_lt htw2 (by norm_num))
  have hHf : roundF ((tH : ℚ)) = tH :=
    roundF_natCast tH (lt_of_le_of_lt hth2 (by norm_num))
  have hApos : 0 < roundF ((srcW : ℚ) / (srcH : ℚ)) := roundF_pos _ (by positivity)
  have hu1 : (0 : ℚ) < 1 - 1 / 2 ^ 53 := by norm_num
  have hu2 : (0 : ℚ) < 1 + 1 / 2 ^ 53 := by norm_num
  -- the un-fitted dimension stays within bounds in each branch
  have hnh_le : ∀ hcase : roundF ((tW : ℚ) / (tH : ℚ)) < roundF ((srcW : ℚ) / (srcH : ℚ)),
      (⌊roundF ((tW : ℚ) / roundF ((srcW : ℚ) / (srcH : ℚ)))⌋).toNat ≤ tH := by
    intro hcase
    have htlow : ((tW : ℚ) / (tH : ℚ)) * (1 - 1 / 2 ^ 53) ≤ roundF ((tW : ℚ) / (tH : ℚ)) :=
      le_roundF _ (by positivity)
    have h1 : ((tW : ℚ) / (tH : ℚ)) * (1 - 1 / 2 ^ 53) <
        roundF ((srcW : ℚ) / (srcH : ℚ)) := lt_of_le_of_lt htlow hcase
    have hbase_pos : (0 : ℚ) < ((tW : ℚ) / (tH : ℚ)) * (1 - 1 / 2 ^ 53) :=
      mul_pos (by positivity) hu1
    have hx : (tW : ℚ) / roundF ((srcW : ℚ) / (srcH : ℚ)) <
        (tW : ℚ) / (((tW : ℚ) / (tH : ℚ)) * (1 - 1 / 2 ^ 53)) :=
      div_lt_div_of_pos_left hWq hbase_pos h1
    have hx2 : (tW : ℚ) / (((tW : ℚ) / (tH : ℚ)) * (1 - 1 / 2 ^ 53)) =
        (tH : ℚ) / (1 - 1 / 2 ^ 53) := by
      rw [div_eq_div_iff hbase_pos.ne' hu1.ne']
      field_simp
      ring
    have hy : roundF ((tW : ℚ) / roundF ((srcW : ℚ) / (srcH : ℚ))) ≤
        ((tW : ℚ) / roundF ((srcW : ℚ) / (srcH : ℚ))) * (1 + 1 / 2 ^ 53) :=
      roundF_le _ (by positivity)
    have hstep : ((tW : ℚ) / roundF ((srcW : ℚ) / (srcH : ℚ))) * (1 + 1 / 2 ^ 53) <
        ((tH : ℚ) / (1 - 1 / 2 ^ 53)) * (1 + 1 / 2 ^ 53) := by
      apply mul_lt_mul_of_pos_right _ hu2
      rw [← hx2]
      exact hx
    have hend : ((tH : ℚ) / (1 - 1 / 2 ^ 53)) * (1 + 1 / 2 ^ 53) < (tH : ℚ) + 1 := by
      rw [div_mul_eq_mul_div, div_lt_iff₀ hu1]
      nlinarith
    have hfinal : roundF ((tW : ℚ) / roundF ((srcW : ℚ) / (srcH : ℚ))) < (tH : ℚ) + 1 := by
      linarith
    have hfl : ⌊roundF ((tW : ℚ) / roundF ((srcW : ℚ) / (srcH : ℚ)))⌋ < (tH : ℤ) + 1 := by
      apply Int.floor_lt.mpr
      push_cast
      exact hfinal
    rw [Int.toNat_le]
    omega
  have hnw_le : ∀ hcase : ¬(roundF ((tW : ℚ) / (tH : ℚ)) < roundF ((srcW : ℚ) / (srcH : ℚ))),
      (⌊roundF ((tH : ℚ) * roundF ((srcW : ℚ) / (srcH : ℚ)))⌋).toNat ≤ tW := by
    intro hcase
    have hAle : roundF ((srcW : ℚ) / (srcH : ℚ)) ≤ roundF ((tW : ℚ) / (tH : ℚ)) :=
      not_lt.mp hcase
    have hTle : roundF ((tW : ℚ) / (tH : ℚ)) ≤ ((tW : ℚ) / (tH : ℚ)) * (1 + 1 / 2 ^ 53) :=
      roundF_le _ (by positivity)
    have hz : (tH : ℚ) * roundF ((srcW : ℚ) / (srcH : ℚ)) ≤ (tW : ℚ) * (1 + 1 / 2 ^ 53) := by
      have h1 : (tH : ℚ) * roundF ((srcW : ℚ) / (srcH : ℚ)) ≤
          (tH : ℚ) * (((tW : ℚ) / (tH : ℚ)) * (1 + 1 / 2 ^ 53)) :=
        mul_le_mul_of_nonneg_left (le_trans hAle hTle) hHq.le
      have h2 : (tH : ℚ) * (((tW : ℚ) / (tH : ℚ)) * (1 + 1 / 2 ^ 53)) =
          (tW : ℚ) * (1 + 1 / 2 ^ 53) := by
        field_simp
        ring
      linarith
    have hr : roundF ((tH : ℚ) * roundF ((srcW : ℚ) / (srcH : ℚ))) ≤
        ((tH : ℚ) * roundF ((srcW : ℚ) / (srcH : ℚ))) * (1 + 1 / 2 ^ 53) :=
      roundF_le _ (by positivity)
    have hr2 : ((tH : ℚ) * roundF ((srcW : ℚ) / (srcH : ℚ))) * (1 + 1 / 2 ^ 53) ≤
        ((tW : ℚ) * (1 + 1 / 2 ^ 53)) * (1 + 1 / 2 ^ 53) :=
      mul_le_mul_of_nonneg_right hz hu2.le
    have hlt2 : ((tW : ℚ) * (1 + 1 / 2 ^ 53)) * (1 + 1 / 2 ^ 53) < (tW : ℚ) + 1 := by
      nlinarith
    have hfinal : roundF ((tH : ℚ) * roundF ((srcW : ℚ) / (srcH : ℚ))) < (tW : ℚ) + 1 := by
      linarith
    have hfl : ⌊roundF ((tH : ℚ) * roundF ((srcW : ℚ) / (srcH : ℚ)))⌋ < (tW : ℤ) + 1 := by
      apply Int.floor_lt.mpr
      push_cast
      exact hfinal
    rw [Int.toNat_le]
    omega
  have hW_le : (optimize_geom srcW srcH tW tH).newW ≤ tW := by
    by_cases hcase : roundF ((tW : ℚ) / (tH : ℚ)) < roundF ((srcW : ℚ) / (srcH : ℚ))
    · have heq : (optimize_geom srcW srcH tW tH).newW = tW := by
        simp only [optimize_geom, if_pos hcase]
      exact le_of_eq heq
    · have heq : (optimize_geom srcW srcH tW tH).newW =
          (⌊roundF ((tH : ℚ) * roundF ((srcW : ℚ) / (srcH : ℚ)))⌋).toNat := by
        simp only [optimize_geom, if_neg hcase, hHf]
      rw [heq]
      exact hnw_le hcase
  have hH_le : (optimize_geom srcW srcH tW tH).newH ≤ tH := by
    by_cases hcase : roundF ((tW : ℚ) / (tH : ℚ)) < roundF ((srcW : ℚ) / (srcH : ℚ))
    · have heq : (optimize_geom srcW srcH tW tH).newH =
          (⌊roundF ((tW : ℚ) / roundF ((srcW : ℚ) / (srcH : ℚ)))⌋).toNat := by
        simp only [optimize_geom, if_pos hcase, hWf]
      rw [heq]
      exact hnh_le hcase
    · have heq : (optimize_geom srcW srcH tW tH).newH = tH := by
        simp only [optimize_geom, if_neg hcase]
      exact le_of_eq heq
  have hfit : (optimize_geom srcW srcH tW tH).newW = tW ∨
      (optimize_geom srcW srcH tW tH).newH = tH := by
    by_cases hcase : roundF ((tW : ℚ) / (tH : ℚ)) < roundF ((srcW : ℚ) / (srcH : ℚ))
    · exact Or.inl (by simp only [optimize_geom, if_pos hcase])
    · exact Or.inr (by simp only [optimize_geom, if_neg hcase])
  have hpx : (optimize_geom srcW srcH tW tH).pasteX =
      (tW - (optimize_geom srcW srcH tW tH).newW) / 2 := rfl
  have hpy : (optimize_geom srcW srcH tW tH).pasteY =
      (tH - (optimize_geom srcW srcH tW tH).newH) / 2 := rfl
  refine ⟨rfl, rfl, hW_le, hH_le, hpx, hpy, ?_, ?_, hfit⟩
  · omega
  · omega

/-- C7 witness: a 100×50 source fit into the 1236×1648 target. -/
theorem C7_witness :
    0 < 100 ∧ 0 < 50 ∧ 0 < 1236 ∧ (1236 : ℕ) ≤ 2 ^ 30 ∧ 0 < 1648 ∧
    (1648 : ℕ) ≤ 2 ^ 30 ∧
    (optimize_geom 100 50 1236 1648).canvasW = 1236 ∧
    (optimize_geom 100 50 1236 1648).canvasH = 1648 ∧
    (optimize_geom 100 50 1236 1648).newW ≤ 1236 ∧
    (optimize_geom 100 50 1236 1648).newH ≤ 1648 :=
  ⟨by norm_num, by norm_num, by norm_num, by norm_num, by norm_num, by norm_num,
    (C7_eink_geometry 100 50 1236 1648 (by norm_num) (by norm_num) (by norm_num)
      (by norm_num) (by norm_num) (by norm_num)).1,
    (C7_eink_geometry 100 50 1236 1648 (by norm_num) (by norm_num) (by norm_num)
      (by norm_num) (by norm_num) (by norm_num)).2.1,
    (C7_eink_geometry 100 50 1236 1648 (by norm_num) (by norm_num) (by norm_num)
      (by norm_num) (by norm_num) (by norm_num)).2.2.1,
    (C7_eink_geometry 100 50 1236 1648 (by norm_num) (by norm_num) (by norm_num)
      (by norm_num) (by norm_num) (by norm_num)).2.2.2.1⟩
end Paperterm
